import Mathlib

/-!
Verification of the resilient multi-step indexing pipeline with recovery
(`IndexerRecoveryService` and its helpers) of the stellar-wrap-frontend
repository, as a shallow embedding in Lean 4.

The embedding follows the TypeScript sources:
 * `app/types/indexingRecovery.ts` — error classifier, retryability,
   backoff calculator, recovery-state shape and initial state;
 * `app/services/indexerRecoveryService.ts` — the recovery controller
   (`runSingleStep`, `awaitStep`, `start`, `retryFailedStep`, `resume`,
   `restart`, `acceptPartialResults`, `continueFrom`);
 * `app/utils/indexerEventEmitter.ts` — the progress emitter channel names;
 * `app/hooks/useIndexerRecovery.ts` — the `canResume` predicate;
 * the step registry (`IndexingStep`, `STEP_ORDER`) as inlined in
   `app/types/indexing` and the repository's store/test copies.

Asynchronous awaiting of worker events is modelled by an environment
(`RunEnv`) that fixes, for every step and attempt number, whether the
awaited promise resolves (a matching step-complete event arrived),
rejects with a step-error message, or times out after 30 s.  The
observable side effects of a run (status patches, worker awaits, backoff
sleeps, worker launches) are collected in an explicit trace.
-/

/-! ## Step registry -/

/-- The seven pipeline steps, in the order of `STEP_ORDER`
(`"initializing"`, `"fetching-transactions"`, `"filtering-timeframes"`,
`"calculating-volume"`, `"identifying-assets"`, `"counting-contracts"`,
`"finalizing"`). -/
inductive IndexingStep
  | initializing
  | fetchingTransactions
  | filteringTimeframes
  | calculatingVolume
  | identifyingAssets
  | countingContracts
  | finalizing
deriving DecidableEq, Repr

open IndexingStep

/-- `STEP_ORDER` from `app/types/indexing`. -/
def STEP_ORDER : List IndexingStep :=
  [initializing, fetchingTransactions, filteringTimeframes,
   calculatingVolume, identifyingAssets, countingContracts, finalizing]

/-- The TypeScript string literal naming a step (used in the timeout
error message). -/
def stepName : IndexingStep → String
  | initializing => "initializing"
  | fetchingTransactions => "fetching-transactions"
  | filteringTimeframes => "filtering-timeframes"
  | calculatingVolume => "calculating-volume"
  | identifyingAssets => "identifying-assets"
  | countingContracts => "counting-contracts"
  | finalizing => "finalizing"

/-- Index of a step in `STEP_ORDER`. -/
def stepIdx : IndexingStep → Nat
  | initializing => 0
  | fetchingTransactions => 1
  | filteringTimeframes => 2
  | calculatingVolume => 3
  | identifyingAssets => 4
  | countingContracts => 5
  | finalizing => 6

/-! ## Error classifier (`app/types/indexingRecovery.ts`) -/

/-- `IndexerErrorType` from `app/types/indexingRecovery.ts`. -/
inductive IndexerErrorType
  | apiError        -- "api-error"
  | networkError    -- "network-error"
  | parsingError    -- "parsing-error"
  | validationError -- "validation-error"
deriving DecidableEq, Repr

/-- A JavaScript value thrown as an error, as far as `classifyError`
inspects it: a `TypeError`, a `SyntaxError`, any other `Error`, a plain
string, or any other non-`Error` value. -/
inductive JsValue
  | typeError (message : String)
  | syntaxError (message : String)
  | error (message : String)
  | str (s : String)
  | other
deriving DecidableEq, Repr

/-- `err instanceof Error` (a `TypeError` and a `SyntaxError` are both
`Error` instances in JavaScript). -/
def instanceOfError : JsValue → Bool
  | .typeError _ => true
  | .syntaxError _ => true
  | .error _ => true
  | _ => false

/-- `err instanceof TypeError`. -/
def instanceOfTypeError : JsValue → Bool
  | .typeError _ => true
  | _ => false

/-- `err instanceof SyntaxError`. -/
def instanceOfSyntaxError : JsValue → Bool
  | .syntaxError _ => true
  | _ => false

/-- `err.message` of an `Error` instance (empty for non-errors, on which
`classifyError` never reads it). -/
def jsMessage : JsValue → String
  | .typeError m => m
  | .syntaxError m => m
  | .error m => m
  | _ => ""

/-- `String(err)` as used for a non-`Error` thrown value. -/
def jsStringOf : JsValue → String
  | .typeError m => "TypeError: " ++ m
  | .syntaxError m => "SyntaxError: " ++ m
  | .error m => "Error: " ++ m
  | .str s => s
  | .other => "[object Object]"

/-- Does `pre` occur at the start of `l`? (Character-list helper for the
JavaScript `String.prototype.includes`.) -/
def charsStartWith : List Char → List Char → Bool
  | [], _ => true
  | _ :: _, [] => false
  | a :: as, b :: bs => a = b && charsStartWith as bs

/-- Does `needle` occur anywhere in `hay`? -/
def charsContain (needle : List Char) : List Char → Bool
  | [] => charsStartWith needle []
  | b :: bs => charsStartWith needle (b :: bs) || charsContain needle bs

/-- JavaScript `hay.includes(needle)`. -/
def strIncludes (hay needle : String) : Bool :=
  charsContain needle.toList hay.toList

/-- JavaScript `s.toLowerCase()` (ASCII case folding suffices for the
messages the classifier tests). -/
def strToLower (s : String) : String :=
  String.mk (s.toList.map Char.toLower)

/-- `classifyError` from `app/types/indexingRecovery.ts`, clause for
clause. -/
def classifyError (err : JsValue) : IndexerErrorType :=
  if instanceOfTypeError err && strIncludes (strToLower (jsMessage err)) "fetch" then
    .networkError
  else if instanceOfSyntaxError err then
    .parsingError
  else if instanceOfError err &&
      (strIncludes (jsMessage err) "404" ||
       strIncludes (jsMessage err) "429" ||
       strIncludes (jsMessage err) "500" ||
       strIncludes (jsMessage err) "Rate limit" ||
       strIncludes (jsMessage err) "Server error" ||
       strIncludes (jsMessage err) "Account not found") then
    .apiError
  else if instanceOfError err &&
      (strIncludes (jsMessage err) "timeout" ||
       strIncludes (jsMessage err) "ECONNABORTED" ||
       strIncludes (jsMessage err) "network" ||
       strIncludes (jsMessage err) "connection") then
    .networkError
  else
    .apiError

/-- `isRetryable` from `app/types/indexingRecovery.ts`. -/
def isRetryable (t : IndexerErrorType) : Bool :=
  t = .apiError || t = .networkError

/-- `MAX_RETRIES` from `app/types/indexingRecovery.ts`. -/
def MAX_RETRIES : Nat := 3

/-- `BASE_BACKOFF_MS` from `app/types/indexingRecovery.ts`. -/
def BASE_BACKOFF_MS : Nat := 1000

/-- `backoffDelay` from `app/types/indexingRecovery.ts`
(`BASE_BACKOFF_MS * Math.pow(2, attempt - 1)`; every caller passes
`attempt ≥ 1`). -/
def backoffDelay (attempt : Nat) : Nat :=
  BASE_BACKOFF_MS * 2 ^ (attempt - 1)

example : classifyError (.typeError "fetch failed") = .networkError := by decide
example : classifyError (.syntaxError "Unexpected token") = .parsingError := by decide
example : classifyError (.error "Account not found (404)") = .apiError := by decide
example : classifyError (.error "something unexpected") = .apiError := by decide
example : classifyError (.str "a plain string") = .apiError := by decide
example : backoffDelay 1 = 1000 ∧ backoffDelay 2 = 2000 ∧ backoffDelay 3 = 4000 := by decide

/-! ## Recovery state (`app/types/indexingRecovery.ts`) -/

/-- `StepRecoveryStatus`. -/
inductive StepRecoveryStatus
  | idle
  | running
  | completed
  | failed
  | skipped
deriving DecidableEq, Repr

/-- `IndexerStepError` (timestamps are abstract `Nat` instants). -/
structure IndexerStepError where
  step : IndexingStep
  type : IndexerErrorType
  message : String
  retryable : Bool
  timestamp : Nat
  attempt : Nat
deriving DecidableEq, Repr

/-- `StepRecoveryState`. -/
structure StepRecoveryState where
  step : IndexingStep
  status : StepRecoveryStatus
  error : Option IndexerStepError := none
  completedAt : Option Nat := none
deriving DecidableEq, Repr

/-- The `pendingAction` alternatives. -/
inductive PendingAction
  | retry
  | resume
  | restart
deriving DecidableEq, Repr

/-- `IndexerRecoveryState` (session ids are abstract `Nat`; `stepStates`
is total over the step enumeration, as in the source where every step of
`STEP_ORDER` is present). -/
structure IndexerRecoveryState where
  sessionId : Nat
  stepStates : IndexingStep → StepRecoveryState
  completedSteps : List IndexingStep
  failedStep : Option IndexingStep
  isPartial : Bool
  totalRetries : Nat
  pendingAction : Option PendingAction

/-- `makeInitialRecoveryState`. -/
def makeInitialRecoveryState (sessionId : Nat) : IndexerRecoveryState :=
  { sessionId := sessionId,
    stepStates := fun s => { step := s, status := .idle },
    completedSteps := [],
    failedStep := none,
    isPartial := false,
    totalRetries := 0,
    pendingAction := none }

/-! ## Recovery controller (`app/services/indexerRecoveryService.ts`) -/

/-- A value stored in the controller's private `partialResults` record:
`runSingleStep` stores the literal `true` marker, the worker's `.then`
handler stores the aggregated `IndexerResult` (abstracted to a `Nat`
identifier). -/
inductive PartialValue
  | flag
  | res (r : Nat)
deriving DecidableEq, Repr

/-- The service's private fields: `state` and `partialResults`. -/
structure ServiceState where
  state : IndexerRecoveryState
  partialResults : IndexingStep → Option PartialValue

/-- A fresh `IndexerRecoveryService` (constructor). -/
def freshService (sessionId : Nat) : ServiceState :=
  { state := makeInitialRecoveryState sessionId, partialResults := fun _ => none }

/-- `patchStep(step, { status })`. -/
def patchStatus (st : IndexerRecoveryState) (s : IndexingStep)
    (v : StepRecoveryStatus) : IndexerRecoveryState :=
  { st with stepStates := fun t =>
      if t = s then { st.stepStates t with status := v } else st.stepStates t }

/-- `patchStep(step, { status: "failed", error })`. -/
def patchFailed (st : IndexerRecoveryState) (s : IndexingStep)
    (e : IndexerStepError) : IndexerRecoveryState :=
  { st with stepStates := fun t =>
      if t = s then { st.stepStates t with status := .failed, error := some e }
      else st.stepStates t }

/-- `patchStep(step, { status: "completed", completedAt })`. -/
def patchCompleted (st : IndexerRecoveryState) (s : IndexingStep)
    (now : Nat) : IndexerRecoveryState :=
  { st with stepStates := fun t =>
      if t = s then { st.stepStates t with status := .completed, completedAt := some now }
      else st.stepStates t }

/-- `patchStep(step, { status: "idle", error: undefined })` (used by
`retryFailedStep` and `resume`). -/
def patchIdleClear (st : IndexerRecoveryState) (s : IndexingStep) : IndexerRecoveryState :=
  { st with stepStates := fun t =>
      if t = s then { st.stepStates t with status := .idle, error := none }
      else st.stepStates t }

/-- How one `awaitStep(step)` attempt ends: the awaited promise resolves
(a matching step-complete event arrived in time), rejects with a matching
step-error event's message, or hits the 30-second timeout guard. -/
inductive StepOutcome
  | complete
  | errorEvent (message : String)
  | timeout
deriving DecidableEq, Repr

/-- The environment fixing each attempt's outcome (and the clock). -/
structure RunEnv where
  outcome : IndexingStep → Nat → StepOutcome
  now : Nat

/-- The rejection value of `awaitStep`, if any: `reject(new Error(message))`
for a step-error event, `reject(new Error("Step \"…\" timed out after 30s"))`
for the timeout guard, nothing on resolution. -/
def rejectValue (step : IndexingStep) : StepOutcome → Option JsValue
  | .complete => none
  | .errorEvent m => some (.error m)
  | .timeout => some (.error ("Step \"" ++ stepName step ++ "\" timed out after 30s"))

/-- Observable side effects of a controller run, in order. -/
inductive RunEffect
  | patch (step : IndexingStep) (status : StepRecoveryStatus)
  | runAttempt (step : IndexingStep) (attempt : Nat)
  | sleep (ms : Nat)
  | launchWorker
deriving DecidableEq, Repr

/-- `runSingleStep(step, opts, attempt)`: skip already-completed steps,
set `running`, await the step's outcome; on success append to
`completedSteps`, mark `completed` and store the `true` marker in
`partialResults`; on failure classify, record the `StepError`, mark
`failed`, and either retry after `backoffDelay(attempt)` (when retryable
and `attempt <= MAX_RETRIES`, bumping `totalRetries` and patching back to
`running`) or halt with `failedStep := step` and
`isPartial := completedSteps.length > 0`.  Returns the success flag, the
final service state and the effect trace. -/
def runSingleStep (env : RunEnv) (c : ServiceState) (step : IndexingStep)
    (attempt : Nat) : Bool × ServiceState × List RunEffect :=
  if step ∈ c.state.completedSteps then
    (true, { c with state := patchStatus c.state step .skipped }, [.patch step .skipped])
  else
    let c1 : ServiceState := { c with state := patchStatus c.state step .running }
    match rejectValue step (env.outcome step attempt) with
    | none =>
        let st2 := { c1.state with completedSteps := c1.state.completedSteps ++ [step] }
        let st3 := patchCompleted st2 step env.now
        (true,
         { state := st3,
           partialResults := fun t =>
             if t = step then some .flag else c1.partialResults t },
         [.patch step .running, .runAttempt step attempt, .patch step .completed])
    | some e =>
        let ty := classifyError e
        let retryable := isRetryable ty
        let stepError : IndexerStepError :=
          { step := step, type := ty,
            message := if instanceOfError e then jsMessage e else jsStringOf e,
            retryable := retryable, timestamp := env.now, attempt := attempt }
        let c2 : ServiceState := { c1 with state := patchFailed c1.state step stepError }
        if hRetry : retryable = true ∧ attempt ≤ MAX_RETRIES then
          let st3 := { c2.state with totalRetries := c2.state.totalRetries + 1 }
          let c3 : ServiceState := { c2 with state := patchStatus st3 step .running }
          match runSingleStep env c3 step (attempt + 1) with
          | (ok, c4, tr) =>
            (ok, c4,
             ([RunEffect.patch step .running, RunEffect.runAttempt step attempt,
               RunEffect.patch step .failed, RunEffect.patch step .running,
               RunEffect.sleep (backoffDelay attempt)] : List RunEffect) ++ tr)
        else
          let st3 := { c2.state with
            failedStep := some step
            isPartial := decide (c2.state.completedSteps.length > 0) }
          (false, { c2 with state := st3 },
           ([RunEffect.patch step .running, RunEffect.runAttempt step attempt,
             RunEffect.patch step .failed] : List RunEffect))
termination_by MAX_RETRIES + 1 - attempt
decreasing_by
  obtain ⟨-, h2⟩ := hRetry
  simp only [MAX_RETRIES] at h2 ⊢
  omega

/-- The sequential `for` loop shared by `runFrom` and `continueFrom`:
drive the given steps in order, each with `attempt = 1`, stopping at the
first halt.  The callers pass `STEP_ORDER.drop startIdx`, the exact
steps the source loop `for (let i = startIdx; i < STEP_ORDER.length; i++)`
visits. -/
def runSteps (env : RunEnv) (c : ServiceState) :
    List IndexingStep → Bool × ServiceState × List RunEffect
  | [] => (true, c, [])
  | s :: rest =>
    match runSingleStep env c s 1 with
    | (true, c1, tr1) =>
      match runSteps env c1 rest with
      | (ok, c2, tr2) => (ok, c2, tr1 ++ tr2)
    | (false, c1, tr1) => (false, c1, tr1)

/-- `runFrom(fromStep, opts)`: launch the pipeline worker when starting
from `initializing`, run the registry loop from `fromStep`'s index, and
return `partialResults["finalizing"] ?? null` on completion or `null` on
halt. -/
def runFrom (env : RunEnv) (c : ServiceState) (fromStep : IndexingStep) :
    Option PartialValue × ServiceState × List RunEffect :=
  let launch : List RunEffect := if fromStep = initializing then [.launchWorker] else []
  match runSteps env c (STEP_ORDER.drop (stepIdx fromStep)) with
  | (true, c1, tr) => (c1.partialResults finalizing, c1, launch ++ tr)
  | (false, c1, tr) => (none, c1, launch ++ tr)

/-- The body of `continueFrom` as a function of the start index: the
registry loop from index `j`, clearing `pendingAction` and returning
`partialResults["finalizing"] ?? null` on completion. -/
def continueFromIdx (env : RunEnv) (c : ServiceState) (j : Nat) :
    Option PartialValue × ServiceState × List RunEffect :=
  match runSteps env c (STEP_ORDER.drop j) with
  | (true, c1, tr) =>
    (c1.partialResults finalizing,
     { c1 with state := { c1.state with pendingAction := none } },
     tr)
  | (false, c1, tr) => (none, c1, tr)

/-- `continueFrom(fromStep, opts)`. -/
def continueFrom (env : RunEnv) (c : ServiceState) (fromStep : IndexingStep) :
    Option PartialValue × ServiceState × List RunEffect :=
  continueFromIdx env c (stepIdx fromStep)

/-- `reset()` with `keepSessionId = false`: a brand-new state with a
fresh session id and cleared `partialResults`. -/
def serviceReset (newId : Nat) : ServiceState :=
  { state := makeInitialRecoveryState newId, partialResults := fun _ => none }

/-- `start(opts)`: reset (fresh session id), clear `pendingAction`, run
from `initializing`. -/
def start (env : RunEnv) (newId : Nat) : Option PartialValue × ServiceState × List RunEffect :=
  let c1 := serviceReset newId
  let c2 : ServiceState := { c1 with state := { c1.state with pendingAction := none } }
  runFrom env c2 initializing

/-- `retryFailedStep(opts)`: require `failedStep`; clear it, set
`pendingAction := retry`, reset the failed step to `idle`, relaunch the
worker, re-run just that step and, on success, continue from the next
registry step. -/
def retryFailedStep (env : RunEnv) (c : ServiceState) :
    Option PartialValue × ServiceState × List RunEffect :=
  match c.state.failedStep with
  | none => (none, c, [])
  | some failed =>
    let st1 := { c.state with failedStep := none, pendingAction := some .retry }
    let c2 : ServiceState := { c with state := patchIdleClear st1 failed }
    match runSingleStep env c2 failed 1 with
    | (true, c3, tr1) =>
      if stepIdx failed + 1 < STEP_ORDER.length then
        match continueFromIdx env c3 (stepIdx failed + 1) with
        | (res, c4, tr2) => (res, c4, .launchWorker :: (tr1 ++ tr2))
      else
        (c3.partialResults finalizing,
         { c3 with state := { c3.state with pendingAction := none } },
         .launchWorker :: tr1)
    | (false, c3, tr1) => (none, c3, .launchWorker :: tr1)

/-- `resume(opts)`: require `failedStep` (only); clear it, set
`pendingAction := resume`, reset the failed step to `idle`, relaunch the
worker, and continue from the previously failed step through the end of
the registry. -/
def resume (env : RunEnv) (c : ServiceState) :
    Option PartialValue × ServiceState × List RunEffect :=
  match c.state.failedStep with
  | none => (none, c, [])
  | some failed =>
    let st1 := { c.state with failedStep := none, pendingAction := some .resume }
    let c2 : ServiceState := { c with state := patchIdleClear st1 failed }
    match continueFrom env c2 failed with
    | (res, c3, tr) => (res, c3, .launchWorker :: tr)

/-- `restart(opts)`: reset with a fresh session id, set
`pendingAction := restart`, then behave exactly like `start` (which
resets again with yet another fresh id and clears `pendingAction`). -/
def restart (env : RunEnv) (newId1 newId2 : Nat) :
    Option PartialValue × ServiceState × List RunEffect :=
  let c1 := serviceReset newId1
  let _c2 : ServiceState := { c1 with state := { c1.state with pendingAction := some .restart } }
  start env newId2

/-- `acceptPartialResults()`:
`return (this.partialResults["finalizing"] as IndexerResult) ?? null`
— a pure read of the `finalizing` slot, returning the service unchanged. -/
def acceptPartialResults (c : ServiceState) : Option PartialValue × ServiceState :=
  (c.partialResults finalizing, c)

/-- The pipeline worker's promise resolving with result `r`
(`launchIndexAccount`'s `.then` handler writes it into
`partialResults["finalizing"]`). -/
def workerResolved (c : ServiceState) (r : Nat) : ServiceState :=
  { c with partialResults := fun t =>
      if t = finalizing then some (.res r) else c.partialResults t }

/-- `canResume` from `app/hooks/useIndexerRecovery.ts`:
`Boolean(state.failedStep) && state.completedSteps.length > 0`. -/
def canResume (st : IndexerRecoveryState) : Bool :=
  st.failedStep.isSome && decide (st.completedSteps.length > 0)

/-! ## Progress emitter channels (`app/utils/indexerEventEmitter.ts`
versus `awaitStep` in `app/services/indexerRecoveryService.ts`) -/

/-- The channel on which `IndexerEventEmitter.emitStepComplete` publishes:
`this.emit("step-complete", { type: "step-complete", step })`. -/
def emitStepCompleteChannel : String := "step-complete"

/-- The channel on which `IndexerEventEmitter.emitStepError` publishes:
`this.emit("step-error", { type: "step-error", step, message, recoverable })`. -/
def emitStepErrorChannel : String := "step-error"

/-- The channel names on which `awaitStep` registers its two listeners:
`emitter.on("stepComplete", onComplete)` and
`emitter.on("stepError", onError)`. -/
def awaitStepOnChannels : List String := ["stepComplete", "stepError"]

/-- A listener registration of the Node `EventEmitter`: an exact event
name and an opaque handler identifier. -/
structure EmitterListener where
  channel : String
  handler : Nat
deriving DecidableEq, Repr

/-- Node's `EventEmitter.emit(name, …)` invokes exactly the handlers
registered under the exact name `channel`, in registration order. -/
def deliverTo (listeners : List EmitterListener) (channel : String) : List Nat :=
  (listeners.filter (fun l => l.channel = channel)).map (fun l => l.handler)

/-- The two listeners `awaitStep` registers while a step is pending
(handler 0 = `onComplete`, handler 1 = `onError`). -/
def awaitStepListeners : List EmitterListener :=
  [{ channel := "stepComplete", handler := 0 }, { channel := "stepError", handler := 1 }]

/-! ## Claim theorems -/

/-- C4: `classifyError` maps a `TypeError` "fetch failed" to
network-error, a `SyntaxError` "Unexpected token" to parsing-error, an
`Error` "Account not found (404)" to api-error, an `Error`
"something unexpected" to the api-error default bucket, and a thrown
plain string to api-error; and `isRetryable` is true exactly for
api-error and network-error, as a function of the kind only. -/
theorem c4_classifier_scenario_and_retryable :
    classifyError (.typeError "fetch failed") = .networkError ∧
    classifyError (.syntaxError "Unexpected token") = .parsingError ∧
    classifyError (.error "Account not found (404)") = .apiError ∧
    classifyError (.error "something unexpected") = .apiError ∧
    classifyError (.str "a plain string") = .apiError ∧
    (∀ k : IndexerErrorType,
      isRetryable k = (k = .apiError || k = .networkError)) := by
  refine ⟨by decide, by decide, by decide, by decide, by decide, ?_⟩
  intro k
  cases k <;> rfl

/-- C10 (implicit): the range of `classifyError` is contained in
{network-error, parsing-error, api-error} — no input whatsoever is
classified as validation-error, so the fourth `ErrorKind` is unreachable
through classification and the only non-retryable classified kind is
parsing-error. -/
theorem c10_classifyError_range :
    ∀ e : JsValue,
      classifyError e = .networkError ∨ classifyError e = .parsingError ∨
      classifyError e = .apiError := by
  intro e
  unfold classifyError
  repeat' split
  · exact Or.inl rfl
  · exact Or.inr (Or.inl rfl)
  · exact Or.inr (Or.inr rfl)
  · exact Or.inl rfl
  · exact Or.inr (Or.inr rfl)

/-- C1 (code-bug evidence): the listeners `awaitStep` registers listen on
the channels `"stepComplete"`/`"stepError"`, while
`IndexerEventEmitter.emitStepComplete`/`emitStepError` publish on
`"step-complete"`/`"step-error"`; Node's `EventEmitter` delivers only on
exact name matches, so an emitted step-complete (or step-error) event
reaches none of `awaitStep`'s listeners and the awaited promise can only
be settled by the 30-second timeout guard. -/
theorem c1_awaitStep_never_receives_emitter_events :
    (awaitStepOnChannels.contains emitStepCompleteChannel) = false ∧
    (awaitStepOnChannels.contains emitStepErrorChannel) = false ∧
    deliverTo awaitStepListeners emitStepCompleteChannel = [] ∧
    deliverTo awaitStepListeners emitStepErrorChannel = [] := by decide

/-- A halted service used as a concrete test state: steps 1 and 2 of the
registry completed, the third step recorded as the failed step,
`isPartial` set. -/
def haltedAt2 : ServiceState :=
  { state := { makeInitialRecoveryState 5 with
                completedSteps := [initializing, fetchingTransactions]
                failedStep := some filteringTimeframes
                isPartial := true },
    partialResults := fun _ => none }

/-- An environment in which every awaited step resolves at once. -/
def envOk : RunEnv := { outcome := fun _ _ => .complete, now := 7 }

/-- C7: `runSingleStep` on a step already present in `completedSteps`
immediately returns success with the step patched to `skipped`: the step
is not re-executed (no worker await, no sleep), `completedSteps` is not
touched (no duplicate append). -/
theorem c7_runSingleStep_idempotent_on_completed
    (env : RunEnv) (c : ServiceState) (step : IndexingStep) (attempt : Nat)
    (h : step ∈ c.state.completedSteps) :
    runSingleStep env c step attempt =
      (true, { c with state := patchStatus c.state step .skipped },
       [RunEffect.patch step .skipped]) ∧
    (runSingleStep env c step attempt).2.1.state.completedSteps = c.state.completedSteps ∧
    ((runSingleStep env c step attempt).2.1.state.stepStates step).status = .skipped ∧
    (∀ a, RunEffect.runAttempt step a ∉ (runSingleStep env c step attempt).2.2) ∧
    (∀ ms, RunEffect.sleep ms ∉ (runSingleStep env c step attempt).2.2) := by
  have he : runSingleStep env c step attempt =
      (true, { c with state := patchStatus c.state step .skipped },
       [RunEffect.patch step .skipped]) := by
    rw [runSingleStep.eq_def, if_pos h]
  refine ⟨he, ?_, ?_, ?_, ?_⟩
  · rw [he]; simp [patchStatus]
  · rw [he]; simp [patchStatus]
  · intro a; rw [he]; simp
  · intro ms; rw [he]; simp

/-- Witness for C7 at a concrete input: in `haltedAt2` the step
`initializing` is already completed, and `runSingleStep` on it skips. -/
theorem c7_witness :
    initializing ∈ haltedAt2.state.completedSteps ∧
    runSingleStep envOk haltedAt2 initializing 1 =
      (true, { haltedAt2 with state := patchStatus haltedAt2.state initializing .skipped },
       [RunEffect.patch initializing .skipped]) := by
  have h : initializing ∈ haltedAt2.state.completedSteps := by
    simp [haltedAt2, makeInitialRecoveryState]
  exact ⟨h, (c7_runSingleStep_idempotent_on_completed envOk haltedAt2 initializing 1 h).1⟩

/-- C8: under the precondition `isPartial = true`, `acceptPartialResults`
returns the finalizing-slot content of `partialResults` — the aggregated
result the pipeline worker's resolution stored there if one exists,
`null` otherwise — and returns the service state entirely unchanged. -/
theorem c8_acceptPartialResults_pure :
    (∀ (c : ServiceState) (r : Nat), c.state.isPartial = true →
        c.partialResults finalizing = some (.res r) →
        acceptPartialResults c = (some (PartialValue.res r), c)) ∧
    (∀ c : ServiceState, c.state.isPartial = true →
        c.partialResults finalizing = none →
        acceptPartialResults c = (none, c)) ∧
    (∀ c : ServiceState, (acceptPartialResults c).2 = c) ∧
    (∀ (c : ServiceState) (r : Nat),
        (acceptPartialResults (workerResolved c r)).1 = some (PartialValue.res r)) := by
  refine ⟨?_, ?_, ?_, ?_⟩ <;> intros <;> simp [acceptPartialResults, workerResolved, *]

/-- Witness for C8 at a concrete input: the halted service after the
worker resolved with result 9 has `isPartial = true`, and accepting
partial results returns that result and the unchanged state. -/
theorem c8_witness :
    (workerResolved haltedAt2 9).state.isPartial = true ∧
    acceptPartialResults (workerResolved haltedAt2 9) =
      (some (PartialValue.res 9), workerResolved haltedAt2 9) := by
  refine ⟨rfl, c8_acceptPartialResults_pure.1 (workerResolved haltedAt2 9) 9 rfl ?_⟩
  simp [workerResolved, haltedAt2]


/-- The service state from which a retry re-attempt starts, mirroring the
retry branch of `runSingleStep`: the step was patched `running`, then
`failed` with the recorded `StepError` of this attempt, `totalRetries`
was incremented, and the status was patched back to `running` for the
backoff wait. -/
def retryNextState (env : RunEnv) (c : ServiceState) (step : IndexingStep)
    (attempt : Nat) (e : JsValue) : ServiceState :=
  let c1 : ServiceState := { c with state := patchStatus c.state step .running }
  let stepError : IndexerStepError :=
    { step := step, type := classifyError e,
      message := if instanceOfError e then jsMessage e else jsStringOf e,
      retryable := isRetryable (classifyError e), timestamp := env.now, attempt := attempt }
  let c2 : ServiceState := { c1 with state := patchFailed c1.state step stepError }
  { c2 with state :=
      patchStatus { c2.state with totalRetries := c2.state.totalRetries + 1 } step .running }

/-- Scenario D environment: the second registry step fails with a
network-classified step-error on attempts 1–3 and succeeds on attempt 4;
every other step succeeds at once. -/
def envD : RunEnv :=
  { outcome := fun s a =>
      if s = fetchingTransactions ∧ a ≤ 3 then .errorEvent "network glitch" else .complete,
    now := 7 }

set_option maxRecDepth 20000 in
set_option maxHeartbeats 2000000 in
/-- C2: on a retryable failure with `attempt ≤ MAX_RETRIES`,
`runSingleStep` increments `totalRetries` by one, leaves the step's
status at `running` for the wait, sleeps `backoffDelay(attempt)` and
re-attempts the same step with `attempt + 1`; and in scenario D (step 2
failing with a network error on attempts 1–3, succeeding on attempt 4)
the run ends with step 2 `completed`, `totalRetries` incremented by
exactly 3, the backoff sleeps 1000/2000/4000 ms, and the run proceeding
to step 3. -/
theorem c2_retryable_failure_retries_with_backoff :
    (∀ (env : RunEnv) (c : ServiceState) (step : IndexingStep) (attempt : Nat) (e : JsValue),
      step ∉ c.state.completedSteps →
      rejectValue step (env.outcome step attempt) = some e →
      isRetryable (classifyError e) = true →
      attempt ≤ MAX_RETRIES →
      runSingleStep env c step attempt =
        ((runSingleStep env (retryNextState env c step attempt e) step (attempt + 1)).1,
         (runSingleStep env (retryNextState env c step attempt e) step (attempt + 1)).2.1,
         [RunEffect.patch step .running, RunEffect.runAttempt step attempt,
          RunEffect.patch step .failed, RunEffect.patch step .running,
          RunEffect.sleep (backoffDelay attempt)] ++
           (runSingleStep env (retryNextState env c step attempt e) step (attempt + 1)).2.2) ∧
      (retryNextState env c step attempt e).state.totalRetries =
        c.state.totalRetries + 1 ∧
      ((retryNextState env c step attempt e).state.stepStates step).status = .running ∧
      (retryNextState env c step attempt e).state.completedSteps =
        c.state.completedSteps ∧
      (retryNextState env c step attempt e).state.failedStep = c.state.failedStep) ∧
    ((runSteps envD (freshService 0) STEP_ORDER).1 = true ∧
     (runSteps envD (freshService 0) STEP_ORDER).2.1.state.totalRetries = 3 ∧
     ((runSteps envD (freshService 0) STEP_ORDER).2.1.state.stepStates
        fetchingTransactions).status = .completed ∧
     RunEffect.sleep 1000 ∈ (runSteps envD (freshService 0) STEP_ORDER).2.2 ∧
     RunEffect.sleep 2000 ∈ (runSteps envD (freshService 0) STEP_ORDER).2.2 ∧
     RunEffect.sleep 4000 ∈ (runSteps envD (freshService 0) STEP_ORDER).2.2 ∧
     RunEffect.runAttempt fetchingTransactions 4 ∈
       (runSteps envD (freshService 0) STEP_ORDER).2.2 ∧
     RunEffect.runAttempt filteringTimeframes 1 ∈
       (runSteps envD (freshService 0) STEP_ORDER).2.2) := by
  constructor
  · intro env c step attempt e hNotDone hOut hRetry hA
    have hmatch :
        runSingleStep env c step attempt =
          (match runSingleStep env (retryNextState env c step attempt e) step (attempt + 1) with
           | (ok, c4, tr) =>
             (ok, c4,
              [RunEffect.patch step .running, RunEffect.runAttempt step attempt,
               RunEffect.patch step .failed, RunEffect.patch step .running,
               RunEffect.sleep (backoffDelay attempt)] ++ tr)) := by
      conv_lhs => rw [runSingleStep.eq_def]
      rw [if_neg hNotDone]
      dsimp only
      rw [hOut]
      dsimp only
      rw [dif_pos ⟨hRetry, hA⟩]
      rfl
    refine ⟨?_, ?_, ?_, ?_, ?_⟩
    · rcases hrec : runSingleStep env (retryNextState env c step attempt e) step (attempt + 1)
        with ⟨ok, c4, tr⟩
      rw [hrec] at hmatch
      simp only [hrec, hmatch]
    · simp [retryNextState, patchStatus, patchFailed]
    · simp [retryNextState, patchStatus, patchFailed]
    · simp [retryNextState, patchStatus, patchFailed]
    · simp [retryNextState, patchStatus, patchFailed]
  · refine ⟨?_, ?_, ?_, ?_, ?_, ?_, ?_, ?_⟩ <;>
      simp [runSteps, runSingleStep, envD, freshService, makeInitialRecoveryState,
            patchStatus, patchCompleted, patchFailed, rejectValue, STEP_ORDER,
            classifyError, isRetryable, MAX_RETRIES, instanceOfError, instanceOfTypeError,
            instanceOfSyntaxError, jsMessage, strIncludes, strToLower, charsContain,
            charsStartWith, backoffDelay, BASE_BACKOFF_MS]

/-- A service mid-run with the first registry step completed. -/
def midRunAt1 : ServiceState :=
  { state := { makeInitialRecoveryState 5 with completedSteps := [initializing] },
    partialResults := fun _ => none }

/-- Witness for C2 at a concrete input: step 2 failing its first attempt
with the network-classified "network glitch" step-error in scenario D's
environment bumps `totalRetries` and keeps the step running. -/
theorem c2_witness :
    (retryNextState envD midRunAt1 fetchingTransactions 1
        (.error "network glitch")).state.totalRetries =
      midRunAt1.state.totalRetries + 1 ∧
    ((retryNextState envD midRunAt1 fetchingTransactions 1
        (.error "network glitch")).state.stepStates fetchingTransactions).status = .running := by
  have h := c2_retryable_failure_retries_with_backoff.1 envD midRunAt1 fetchingTransactions 1
      (.error "network glitch") (by decide) (by decide) (by decide) (by decide)
  exact ⟨h.2.1, h.2.2.1⟩

/-- The halted service state produced by the non-retry branch of
`runSingleStep`: the step was patched `running`, then `failed` with the
recorded `StepError`, `failedStep` was set to the step and `isPartial`
recomputed as `completedSteps.length > 0`. -/
def haltState (env : RunEnv) (c : ServiceState) (step : IndexingStep)
    (attempt : Nat) (e : JsValue) : ServiceState :=
  let c1 : ServiceState := { c with state := patchStatus c.state step .running }
  let stepError : IndexerStepError :=
    { step := step, type := classifyError e,
      message := if instanceOfError e then jsMessage e else jsStringOf e,
      retryable := isRetryable (classifyError e), timestamp := env.now, attempt := attempt }
  let c2 : ServiceState := { c1 with state := patchFailed c1.state step stepError }
  { c2 with state :=
      { c2.state with
        failedStep := some step
        isPartial := decide (c2.state.completedSteps.length > 0) } }

/-- C3: when an attempt fails with a non-retryable classified kind, or
when retries are exhausted (`attempt > MAX_RETRIES`), `runSingleStep`
halts right after that attempt: its trace is exactly one worker await
with no backoff sleep, it returns failure, sets `failedStep` to the
step, recomputes `isPartial` as "completedSteps non-empty at that
moment", and leaves `completedSteps` untouched. -/
theorem c3_nonretryable_or_exhausted_halts
    (env : RunEnv) (c : ServiceState) (step : IndexingStep) (attempt : Nat) (e : JsValue)
    (hNotDone : step ∉ c.state.completedSteps)
    (hOut : rejectValue step (env.outcome step attempt) = some e)
    (hHalt : isRetryable (classifyError e) = false ∨ MAX_RETRIES < attempt) :
    runSingleStep env c step attempt =
      (false, haltState env c step attempt e,
       [RunEffect.patch step .running, RunEffect.runAttempt step attempt,
        RunEffect.patch step .failed]) ∧
    (haltState env c step attempt e).state.failedStep = some step ∧
    ((haltState env c step attempt e).state.isPartial = true ↔
      c.state.completedSteps ≠ []) ∧
    (haltState env c step attempt e).state.completedSteps = c.state.completedSteps ∧
    (haltState env c step attempt e).state.totalRetries = c.state.totalRetries := by
  have hneg : ¬ (isRetryable (classifyError e) = true ∧ attempt ≤ MAX_RETRIES) := by
    rcases hHalt with h | h
    · intro hc; rw [hc.1] at h; cases h
    · intro hc; omega
  refine ⟨?_, ?_, ?_, ?_, ?_⟩
  · conv_lhs => rw [runSingleStep.eq_def]
    rw [if_neg hNotDone]
    dsimp only
    rw [hOut]
    dsimp only
    rw [dif_neg hneg]
    rfl
  · simp [haltState, patchStatus, patchFailed]
  · simp [haltState, patchStatus, patchFailed, List.length_pos]
  · simp [haltState, patchStatus, patchFailed]
  · simp [haltState, patchStatus, patchFailed]

/-- An environment whose every awaited attempt rejects with the
step-error message "boom" (classified api-error, retryable). -/
def envErr0 : RunEnv := { outcome := fun _ _ => .errorEvent "boom", now := 7 }

/-- A service mid-run with the first two registry steps completed and no
failure recorded yet. -/
def midRunAt2 : ServiceState :=
  { state := { makeInitialRecoveryState 5 with
                completedSteps := [initializing, fetchingTransactions] },
    partialResults := fun _ => none }

/-- Witness for C3 at a concrete input: the third registry step, failing
on attempt 4 (retries exhausted) after two completed steps, halts with
no further attempt and no sleep in its trace, `failedStep` set to it,
two completed steps preserved, and `isPartial` true. -/
theorem c3_witness :
    runSingleStep envErr0 midRunAt2 filteringTimeframes 4 =
      (false, haltState envErr0 midRunAt2 filteringTimeframes 4 (.error "boom"),
       [RunEffect.patch filteringTimeframes .running,
        RunEffect.runAttempt filteringTimeframes 4,
        RunEffect.patch filteringTimeframes .failed]) ∧
    (haltState envErr0 midRunAt2 filteringTimeframes 4 (.error "boom")).state.failedStep =
      some filteringTimeframes ∧
    (haltState envErr0 midRunAt2 filteringTimeframes 4 (.error "boom")).state.isPartial = true ∧
    (haltState envErr0 midRunAt2 filteringTimeframes 4
        (.error "boom")).state.completedSteps.length = 2 := by
  have h := c3_nonretryable_or_exhausted_halts envErr0 midRunAt2 filteringTimeframes 4
      (.error "boom") (by decide) (by decide) (Or.inr (by decide))
  refine ⟨h.1, h.2.1, ?_, ?_⟩
  · have h3 := h.2.2.1
    have : midRunAt2.state.completedSteps ≠ [] := by decide
    exact h3.mpr this
  · rw [h.2.2.2.1]
    decide

/-! ## Registry-order machinery for completedSteps invariants -/

/-- The step at index `j` of `STEP_ORDER` (total, with the last step as
out-of-range default; only `j < 7` is ever used). -/
def stepAt : Nat → IndexingStep
  | 0 => initializing
  | 1 => fetchingTransactions
  | 2 => filteringTimeframes
  | 3 => calculatingVolume
  | 4 => identifyingAssets
  | 5 => countingContracts
  | _ => finalizing

theorem stepOrder_nodup : STEP_ORDER.Nodup := by decide

theorem stepAt_stepIdx : ∀ s : IndexingStep, stepAt (stepIdx s) = s := by
  intro s; cases s <;> rfl

theorem stepIdx_lt_length : ∀ s : IndexingStep, stepIdx s < STEP_ORDER.length := by
  intro s; cases s <;> decide

theorem stepOrder_drop_succ :
    ∀ j : Nat, j < 7 → STEP_ORDER.drop j = stepAt j :: STEP_ORDER.drop (j + 1) := by
  decide

theorem stepAt_mem_take :
    ∀ k : Nat, k ≤ 7 → ∀ j : Nat, j < 7 →
      (stepAt j ∈ STEP_ORDER.take k ↔ j < k) := by
  decide

theorem stepOrder_take_succ :
    ∀ k : Nat, k < 7 → STEP_ORDER.take k ++ [stepAt k] = STEP_ORDER.take (k + 1) := by
  decide

theorem stepOrder_take_nodup (n : Nat) : (STEP_ORDER.take n).Nodup :=
  (List.take_sublist n STEP_ORDER).nodup stepOrder_nodup

/-- The service state after a successful attempt of `step`, mirroring the
success branch of `runSingleStep`: status `running`, the step appended to
`completedSteps`, status `completed` with timestamp, and the `true`
marker stored in `partialResults`. -/
def succState (env : RunEnv) (c : ServiceState) (step : IndexingStep) : ServiceState :=
  let c1 : ServiceState := { c with state := patchStatus c.state step .running }
  let st2 := { c1.state with completedSteps := c1.state.completedSteps ++ [step] }
  { state := patchCompleted st2 step env.now,
    partialResults := fun t => if t = step then some .flag else c1.partialResults t }

theorem runSingleStep_skip_eq (env : RunEnv) (c : ServiceState) (step : IndexingStep)
    (attempt : Nat) (h : step ∈ c.state.completedSteps) :
    runSingleStep env c step attempt =
      (true, { c with state := patchStatus c.state step .skipped },
       [RunEffect.patch step .skipped]) := by
  rw [runSingleStep.eq_def, if_pos h]

theorem runSingleStep_success_eq (env : RunEnv) (c : ServiceState) (step : IndexingStep)
    (attempt : Nat) (hs : step ∉ c.state.completedSteps)
    (hO : rejectValue step (env.outcome step attempt) = none) :
    runSingleStep env c step attempt =
      (true, succState env c step,
       [RunEffect.patch step .running, RunEffect.runAttempt step attempt,
        RunEffect.patch step .completed]) := by
  conv_lhs => rw [runSingleStep.eq_def]
  rw [if_neg hs]
  dsimp only
  rw [hO]
  rfl

theorem runSingleStep_retry_eq (env : RunEnv) (c : ServiceState) (step : IndexingStep)
    (attempt : Nat) (e : JsValue) (hs : step ∉ c.state.completedSteps)
    (hO : rejectValue step (env.outcome step attempt) = some e)
    (hR : isRetryable (classifyError e) = true) (hA : attempt ≤ MAX_RETRIES) :
    runSingleStep env c step attempt =
      (match runSingleStep env (retryNextState env c step attempt e) step (attempt + 1) with
       | (ok, c4, tr) =>
         (ok, c4,
          [RunEffect.patch step .running, RunEffect.runAttempt step attempt,
           RunEffect.patch step .failed, RunEffect.patch step .running,
           RunEffect.sleep (backoffDelay attempt)] ++ tr)) := by
  conv_lhs => rw [runSingleStep.eq_def]
  rw [if_neg hs]
  dsimp only
  rw [hO]
  dsimp only
  rw [dif_pos ⟨hR, hA⟩]
  rfl

theorem runSingleStep_halt_eq (env : RunEnv) (c : ServiceState) (step : IndexingStep)
    (attempt : Nat) (e : JsValue) (hs : step ∉ c.state.completedSteps)
    (hO : rejectValue step (env.outcome step attempt) = some e)
    (hG : ¬ (isRetryable (classifyError e) = true ∧ attempt ≤ MAX_RETRIES)) :
    runSingleStep env c step attempt =
      (false, haltState env c step attempt e,
       [RunEffect.patch step .running, RunEffect.runAttempt step attempt,
        RunEffect.patch step .failed]) := by
  conv_lhs => rw [runSingleStep.eq_def]
  rw [if_neg hs]
  dsimp only
  rw [hO]
  dsimp only
  rw [dif_neg hG]
  rfl

/-- Outcome shape of `runSingleStep` on a not-yet-completed step, across
all retries: either it eventually succeeds, appending exactly the step
to `completedSteps` and preserving `failedStep`, or it halts, leaving
`completedSteps` untouched, setting `failedStep` to the step and
recomputing `isPartial`. -/
theorem runSingleStep_shape (env : RunEnv) (s : IndexingStep) (a : Nat) (c : ServiceState)
    (hs : s ∉ c.state.completedSteps) :
    ((runSingleStep env c s a).1 = true ∧
     (runSingleStep env c s a).2.1.state.completedSteps = c.state.completedSteps ++ [s] ∧
     (runSingleStep env c s a).2.1.state.failedStep = c.state.failedStep) ∨
    ((runSingleStep env c s a).1 = false ∧
     (runSingleStep env c s a).2.1.state.completedSteps = c.state.completedSteps ∧
     (runSingleStep env c s a).2.1.state.failedStep = some s ∧
     (runSingleStep env c s a).2.1.state.isPartial =
       decide (c.state.completedSteps.length > 0)) := by
  rcases hO : rejectValue s (env.outcome s a) with - | e
  · left
    rw [runSingleStep_success_eq env c s a hs hO]
    refine ⟨rfl, ?_, ?_⟩ <;> simp [succState, patchStatus, patchCompleted]
  · by_cases hg : isRetryable (classifyError e) = true ∧ a ≤ MAX_RETRIES
    · have heq := runSingleStep_retry_eq env c s a e hs hO hg.1 hg.2
      have hs3 : s ∉ (retryNextState env c s a e).state.completedSteps := by
        simpa [retryNextState, patchStatus, patchFailed] using hs
      have hcs : (retryNextState env c s a e).state.completedSteps =
          c.state.completedSteps := by
        simp [retryNextState, patchStatus, patchFailed]
      have hfs : (retryNextState env c s a e).state.failedStep = c.state.failedStep := by
        simp [retryNextState, patchStatus, patchFailed]
      have ih := runSingleStep_shape env s (a + 1) (retryNextState env c s a e) hs3
      rcases hrec : runSingleStep env (retryNextState env c s a e) s (a + 1)
        with ⟨ok, c4, tr⟩
      rw [hrec] at heq ih
      rw [heq]
      dsimp only at ih ⊢
      rcases ih with ⟨h1, h2, h3⟩ | ⟨h1, h2, h3, h4⟩
      · left
        exact ⟨h1, by rw [h2, hcs], by rw [h3, hfs]⟩
      · right
        refine ⟨h1, by rw [h2, hcs], h3, ?_⟩
        rw [h4, hcs]
    · have heq := runSingleStep_halt_eq env c s a e hs hO hg
      rw [heq]
      right
      refine ⟨rfl, ?_, ?_, ?_⟩ <;> simp [haltState, patchStatus, patchFailed]
termination_by MAX_RETRIES + 1 - a
decreasing_by
  obtain ⟨-, h2⟩ := hg
  simp only [MAX_RETRIES] at h2 ⊢
  omega

/-- Loop invariant of the registry loop: starting the loop at index
`j ≤ k` with `completedSteps = STEP_ORDER.take k`, the final
`completedSteps` is `STEP_ORDER.take k'` for some `k ≤ k' ≤ 7`, and if
the loop halted then `failedStep` is the step at index `k'` (the first
not-completed one) with `k' < 7`. -/
theorem runSteps_take_inv (env : RunEnv) (j k : Nat) (c : ServiceState)
    (hjk : j ≤ k) (hk : k ≤ 7)
    (hc : c.state.completedSteps = STEP_ORDER.take k) :
    ∃ k', k ≤ k' ∧ k' ≤ 7 ∧
      (runSteps env c (STEP_ORDER.drop j)).2.1.state.completedSteps = STEP_ORDER.take k' ∧
      ((runSteps env c (STEP_ORDER.drop j)).1 = false →
        (runSteps env c (STEP_ORDER.drop j)).2.1.state.failedStep = some (stepAt k') ∧
        k' < 7) := by
  by_cases hj : j < 7
  · rw [stepOrder_drop_succ j hj]
    by_cases hmem : stepAt j ∈ c.state.completedSteps
    · have hskip := runSingleStep_skip_eq env c (stepAt j) 1 hmem
      have hjk' : j < k :=
        (stepAt_mem_take k hk j hj).mp (by rw [hc] at hmem; exact hmem)
      have hc' : ({ c with state := patchStatus c.state (stepAt j) .skipped } :
          ServiceState).state.completedSteps = STEP_ORDER.take k := by
        simpa [patchStatus] using hc
      obtain ⟨k', hkk', hk7, hres, hhalt⟩ :=
        runSteps_take_inv env (j + 1) k
          { c with state := patchStatus c.state (stepAt j) .skipped } hjk' hk hc'
      rcases hrec2 : runSteps env
          { c with state := patchStatus c.state (stepAt j) .skipped }
          (STEP_ORDER.drop (j + 1)) with ⟨ok2, c2, tr2⟩
      rw [hrec2] at hres hhalt
      refine ⟨k', hkk', hk7, ?_, ?_⟩
      · simp only [runSteps, hskip, hrec2]
        exact hres
      · simp only [runSteps, hskip, hrec2]
        exact hhalt
    · have hjeq : j = k := by
        rcases Nat.lt_or_ge j k with h | h
        · exact absurd ((stepAt_mem_take k hk j hj).mpr h)
            (by rw [hc] at hmem; exact hmem)
        · omega
      subst hjeq
      have hshape := runSingleStep_shape env (stepAt j) 1 c hmem
      rcases hrec : runSingleStep env c (stepAt j) 1 with ⟨ok, c1, tr⟩
      rw [hrec] at hshape
      dsimp only at hshape
      rcases hshape with ⟨h1, h2, h3⟩ | ⟨h1, h2, h3, h4⟩
      · subst h1
        have hc1 : c1.state.completedSteps = STEP_ORDER.take (j + 1) := by
          rw [h2, hc, stepOrder_take_succ j hj]
        obtain ⟨k', hkk', hk7, hres, hhalt⟩ :=
          runSteps_take_inv env (j + 1) (j + 1) c1 le_rfl (by omega) hc1
        rcases hrec2 : runSteps env c1 (STEP_ORDER.drop (j + 1)) with ⟨ok2, c2, tr2⟩
        rw [hrec2] at hres hhalt
        refine ⟨k', by omega, hk7, ?_, ?_⟩
        · simp only [runSteps, hrec, hrec2]
          exact hres
        · simp only [runSteps, hrec, hrec2]
          exact hhalt
      · subst h1
        refine ⟨j, le_rfl, by omega, ?_, ?_⟩
        · simp only [runSteps, hrec]
          rw [h2, hc]
        · intro _
          simp only [runSteps, hrec]
          exact ⟨h3, hj⟩
  · have hdrop : STEP_ORDER.drop j = [] := by
      apply List.drop_eq_nil_of_le
      simpa [STEP_ORDER] using Nat.le_of_not_lt hj
    rw [hdrop]
    exact ⟨k, le_rfl, hk, by simpa [runSteps] using hc, by simp [runSteps]⟩
termination_by 7 - j
decreasing_by
  all_goals omega

theorem stepOrder_take_extend (k k' : Nat) (h : k ≤ k') :
    ∃ t, STEP_ORDER.take k' = STEP_ORDER.take k ++ t := by
  have hadd : k + (k' - k) = k' := by omega
  have ht := List.take_add STEP_ORDER k (k' - k)
  rw [hadd] at ht
  exact ⟨(STEP_ORDER.drop k).take (k' - k), ht⟩

theorem stepIdx_stepAt : ∀ j : Nat, j < 7 → stepIdx (stepAt j) = j := by
  decide

theorem runFrom_state (env : RunEnv) (c : ServiceState) (f : IndexingStep) :
    (runFrom env c f).2.1 = (runSteps env c (STEP_ORDER.drop (stepIdx f))).2.1 := by
  rcases hrec : runSteps env c (STEP_ORDER.drop (stepIdx f)) with ⟨ok, c1, tr⟩
  cases ok <;> simp [runFrom, hrec]

theorem continueFromIdx_state_fields (env : RunEnv) (c : ServiceState) (j : Nat) :
    (continueFromIdx env c j).2.1.state.completedSteps =
      (runSteps env c (STEP_ORDER.drop j)).2.1.state.completedSteps ∧
    (continueFromIdx env c j).2.1.state.failedStep =
      (runSteps env c (STEP_ORDER.drop j)).2.1.state.failedStep := by
  rcases hrec : runSteps env c (STEP_ORDER.drop j) with ⟨ok, c1, tr⟩
  cases ok <;> simp [continueFromIdx, hrec]

theorem stepIdx_lt7 : ∀ s : IndexingStep, stepIdx s < 7 := by
  intro s; cases s <;> decide

/-- C9: within one session `completedSteps` is always a prefix of the
registry — `STEP_ORDER.take k'` — hence duplicate-free, in registry
order, and only ever extended at the end; this holds along every
execution path: `start` and `restart` produce such a list from scratch,
and `resume` / `retryFailedStep`, run from a halted state whose
`completedSteps` is `STEP_ORDER.take k` with the failed step at registry
index `k`, only append at the end (already-completed steps are skipped,
never re-run and re-appended). -/
theorem c9_completedSteps_append_only_registry_order :
    (∀ (env : RunEnv) (newId : Nat),
      ∃ k', k' ≤ 7 ∧
        (start env newId).2.1.state.completedSteps = STEP_ORDER.take k' ∧
        (start env newId).2.1.state.completedSteps.Nodup) ∧
    (∀ (env : RunEnv) (id1 id2 : Nat),
      ∃ k', k' ≤ 7 ∧
        (restart env id1 id2).2.1.state.completedSteps = STEP_ORDER.take k' ∧
        (restart env id1 id2).2.1.state.completedSteps.Nodup) ∧
    (∀ (env : RunEnv) (c : ServiceState) (s : IndexingStep) (k : Nat),
      c.state.completedSteps = STEP_ORDER.take k →
      c.state.failedStep = some s → stepIdx s = k →
      ∃ k' t, k ≤ k' ∧ k' ≤ 7 ∧
        (resume env c).2.1.state.completedSteps = STEP_ORDER.take k' ∧
        (resume env c).2.1.state.completedSteps = c.state.completedSteps ++ t ∧
        (resume env c).2.1.state.completedSteps.Nodup) ∧
    (∀ (env : RunEnv) (c : ServiceState) (s : IndexingStep) (k : Nat),
      c.state.completedSteps = STEP_ORDER.take k →
      c.state.failedStep = some s → stepIdx s = k →
      ∃ k' t, k ≤ k' ∧ k' ≤ 7 ∧
        (retryFailedStep env c).2.1.state.completedSteps = STEP_ORDER.take k' ∧
        (retryFailedStep env c).2.1.state.completedSteps =
          c.state.completedSteps ++ t ∧
        (retryFailedStep env c).2.1.state.completedSteps.Nodup) := by
  have hstart : ∀ (env : RunEnv) (newId : Nat),
      ∃ k', k' ≤ 7 ∧
        (start env newId).2.1.state.completedSteps = STEP_ORDER.take k' ∧
        (start env newId).2.1.state.completedSteps.Nodup := by
    intro env newId
    have he : start env newId =
        runFrom env
          { state := { makeInitialRecoveryState newId with pendingAction := none },
            partialResults := fun _ => none } initializing := rfl
    obtain ⟨k', h0k, hk7, hres, -⟩ :=
      runSteps_take_inv env (stepIdx initializing) 0
        { state := { makeInitialRecoveryState newId with pendingAction := none },
          partialResults := fun _ => none }
        (by decide) (by omega) rfl
    refine ⟨k', hk7, ?_, ?_⟩
    · rw [he, runFrom_state]
      exact hres
    · rw [he, runFrom_state, hres]
      exact stepOrder_take_nodup k'
  refine ⟨hstart, ?_, ?_, ?_⟩
  · intro env id1 id2
    exact hstart env id2
  · intro env c s k hc hf hi
    have hk7 : k ≤ 7 := by
      have := stepIdx_lt7 s
      omega
    rcases hrec : continueFrom env
        { c with state :=
            patchIdleClear { c.state with failedStep := none, pendingAction := some .resume } s }
        s with ⟨res, c3, tr⟩
    have hres21 : (resume env c).2.1 = c3 := by
      simp [resume, hf, hrec]
    have hcf := continueFromIdx_state_fields env
      { c with state :=
          patchIdleClear { c.state with failedStep := none, pendingAction := some .resume } s }
      (stepIdx s)
    have hrec' : continueFromIdx env
        { c with state :=
            patchIdleClear { c.state with failedStep := none, pendingAction := some .resume } s }
        (stepIdx s) = (res, c3, tr) := hrec
    rw [hrec'] at hcf
    obtain ⟨k', hkk', hk'7, hresC, -⟩ :=
      runSteps_take_inv env (stepIdx s) k
        { c with state :=
            patchIdleClear { c.state with failedStep := none, pendingAction := some .resume } s }
        (le_of_eq hi) hk7 (by simpa [patchIdleClear] using hc)
    obtain ⟨t, ht⟩ := stepOrder_take_extend k k' hkk'
    have hfinal : (resume env c).2.1.state.completedSteps = STEP_ORDER.take k' := by
      rw [hres21, hcf.1]
      exact hresC
    refine ⟨k', t, hkk', hk'7, hfinal, ?_, ?_⟩
    · rw [hfinal, hc, ← ht]
    · rw [hfinal]
      exact stepOrder_take_nodup k'
  · intro env c s k hc hf hi
    have hk7 : k < 7 := by
      have := stepIdx_lt7 s
      omega
    have hsk : stepAt k = s := by rw [← hi, stepAt_stepIdx s]
    have hC2c : ({ c with state :=
                     (patchIdleClear
                       { c.state with failedStep := none, pendingAction := some .retry } s) } :
          ServiceState).state.completedSteps = STEP_ORDER.take k := by
      simpa [patchIdleClear] using hc
    have hnm : s ∉ ({ c with state :=
                        (patchIdleClear
                          { c.state with failedStep := none, pendingAction := some .retry } s) } :
          ServiceState).state.completedSteps := by
      rw [hC2c, ← hsk]
      intro hmem
      have := (stepAt_mem_take k (by omega) k hk7).mp hmem
      omega
    have hshape := runSingleStep_shape env s 1
      { c with state :=
          patchIdleClear { c.state with failedStep := none, pendingAction := some .retry } s }
      hnm
    rcases hrec : runSingleStep env
        { c with state :=
            patchIdleClear { c.state with failedStep := none, pendingAction := some .retry } s }
        s 1 with ⟨ok, c1, tr⟩
    rw [hrec] at hshape
    dsimp only at hshape
    rcases hshape with ⟨h1, h2, h3⟩ | ⟨h1, h2, h3, h4⟩
    · subst h1
      have hc1 : c1.state.completedSteps = STEP_ORDER.take (k + 1) := by
        rw [h2, hC2c, ← hsk, stepOrder_take_succ k hk7]
      by_cases hlt : stepIdx s + 1 < STEP_ORDER.length
      · rcases hrec2 : continueFromIdx env c1 (stepIdx s + 1) with ⟨res2, c4, tr2⟩
        have hres21 : (retryFailedStep env c).2.1 = c4 := by
          simp [retryFailedStep, hf, hrec, if_pos hlt, hrec2]
        have hcf := continueFromIdx_state_fields env c1 (stepIdx s + 1)
        rw [hrec2] at hcf
        obtain ⟨k', hkk', hk'7, hresC, -⟩ :=
          runSteps_take_inv env (stepIdx s + 1) (k + 1) c1 (by omega) (by omega) hc1
        obtain ⟨t, ht⟩ := stepOrder_take_extend k k' (by omega)
        have hfinal : (retryFailedStep env c).2.1.state.completedSteps =
            STEP_ORDER.take k' := by
          rw [hres21, hcf.1]
          exact hresC
        refine ⟨k', t, by omega, hk'7, hfinal, ?_, ?_⟩
        · rw [hfinal, hc, ← ht]
        · rw [hfinal]
          exact stepOrder_take_nodup k'
      · have hres21 : (retryFailedStep env c).2.1 =
            { c1 with state := { c1.state with pendingAction := none } } := by
          simp [retryFailedStep, hf, hrec, if_neg hlt]
        obtain ⟨t, ht⟩ := stepOrder_take_extend k (k + 1) (by omega)
        have hfinal : (retryFailedStep env c).2.1.state.completedSteps =
            STEP_ORDER.take (k + 1) := by
          rw [hres21]
          exact hc1
        refine ⟨k + 1, t, by omega, by omega, hfinal, ?_, ?_⟩
        · rw [hfinal, hc, ← ht]
        · rw [hfinal]
          exact stepOrder_take_nodup (k + 1)
    · subst h1
      have hres21 : (retryFailedStep env c).2.1 = c1 := by
        simp [retryFailedStep, hf, hrec]
      have hfinal : (retryFailedStep env c).2.1.state.completedSteps =
          STEP_ORDER.take k := by
        rw [hres21, h2]
        exact hC2c
      refine ⟨k, [], le_rfl, by omega, hfinal, ?_, ?_⟩
      · rw [hfinal, hc, List.append_nil]
      · rw [hfinal]
        exact stepOrder_take_nodup k

/-- Witness for C9 at a concrete input: resuming the halted service
(first two steps completed, third failed) extends `completedSteps` only
at the end, keeping it a duplicate-free registry prefix. -/
theorem c9_witness :
    ∃ k' t, 2 ≤ k' ∧ k' ≤ 7 ∧
      (resume envOk haltedAt2).2.1.state.completedSteps = STEP_ORDER.take k' ∧
      (resume envOk haltedAt2).2.1.state.completedSteps =
        haltedAt2.state.completedSteps ++ t ∧
      (resume envOk haltedAt2).2.1.state.completedSteps.Nodup :=
  c9_completedSteps_append_only_registry_order.2.2.1 envOk haltedAt2
    filteringTimeframes 2 rfl rfl rfl

/-- Every attempt of a not-yet-completed step leaves a worker-await
marker for that exact attempt in the trace: the step really executes. -/
theorem runSingleStep_attempts (env : RunEnv) (c : ServiceState) (s : IndexingStep)
    (a : Nat) (hs : s ∉ c.state.completedSteps) :
    RunEffect.runAttempt s a ∈ (runSingleStep env c s a).2.2 := by
  rcases hO : rejectValue s (env.outcome s a) with - | e
  · rw [runSingleStep_success_eq env c s a hs hO]
    simp
  · by_cases hg : isRetryable (classifyError e) = true ∧ a ≤ MAX_RETRIES
    · rw [runSingleStep_retry_eq env c s a e hs hO hg.1 hg.2]
      rcases hrec : runSingleStep env (retryNextState env c s a e) s (a + 1)
        with ⟨ok, c4, tr⟩
      simp
    · rw [runSingleStep_halt_eq env c s a e hs hO hg]
      simp

/-- The registry loop really attempts its first not-yet-completed step. -/
theorem runSteps_first_attempt (env : RunEnv) (c : ServiceState) (s : IndexingStep)
    (rest : List IndexingStep) (hs : s ∉ c.state.completedSteps) :
    RunEffect.runAttempt s 1 ∈ (runSteps env c (s :: rest)).2.2 := by
  have h1 := runSingleStep_attempts env c s 1 hs
  rcases hrec : runSingleStep env c s 1 with ⟨ok, c1, tr1⟩
  rw [hrec] at h1
  cases ok
  · simp only [runSteps, hrec]
    exact h1
  · rcases hrec2 : runSteps env c1 rest with ⟨ok2, c2, tr2⟩
    simp only [runSteps, hrec, hrec2, List.mem_append]
    exact Or.inl h1

theorem continueFromIdx_trace (env : RunEnv) (c : ServiceState) (j : Nat) :
    (continueFromIdx env c j).2.2 = (runSteps env c (STEP_ORDER.drop j)).2.2 := by
  rcases hrec : runSteps env c (STEP_ORDER.drop j) with ⟨ok, c1, tr⟩
  cases ok <;> simp [continueFromIdx, hrec]

/-- `resume` with any `failedStep` set re-runs that step (with a real
worker await), regardless of `completedSteps`: the only guard in the
service is `failedStep` being non-null. -/
theorem resume_runs_failed_step (env : RunEnv) (c : ServiceState) (s : IndexingStep)
    (hf : c.state.failedStep = some s) (hnm : s ∉ c.state.completedSteps) :
    RunEffect.runAttempt s 1 ∈ (resume env c).2.2 := by
  rcases hrec : continueFrom env
      { c with state :=
          patchIdleClear { c.state with failedStep := none, pendingAction := some .resume } s }
      s with ⟨res, c3, tr⟩
  have htr : (resume env c).2.2 = RunEffect.launchWorker :: tr := by
    simp [resume, hf, hrec]
  have htr2 : tr = (runSteps env
      { c with state :=
          patchIdleClear { c.state with failedStep := none, pendingAction := some .resume } s }
      (STEP_ORDER.drop (stepIdx s))).2.2 := by
    have := continueFromIdx_trace env
      { c with state :=
          patchIdleClear { c.state with failedStep := none, pendingAction := some .resume } s }
      (stepIdx s)
    rw [show continueFromIdx env
        { c with state :=
            patchIdleClear { c.state with failedStep := none, pendingAction := some .resume } s }
        (stepIdx s) = (res, c3, tr) from hrec] at this
    exact this
  have hnm2 : s ∉ ({ c with state :=
                       (patchIdleClear
                         { c.state with failedStep := none, pendingAction := some .resume } s) } :
        ServiceState).state.completedSteps := by
    simpa [patchIdleClear] using hnm
  rw [htr, htr2, stepOrder_drop_succ (stepIdx s) (stepIdx_lt7 s), stepAt_stepIdx]
  exact List.mem_cons_of_mem _ (runSteps_first_attempt env _ s _ hnm2)

/-- A service whose very first registry step failed with nothing
completed: `failedStep` is set but `completedSteps` is empty. -/
def firstStepFailedState : ServiceState :=
  { state := { makeInitialRecoveryState 5 with failedStep := some initializing },
    partialResults := fun _ => none }

/-- C5 counterexample: in the state where `failedStep` is set but
`completedSteps` is empty, `canResume` is indeed false — yet calling the
service's `resume` does re-run a step (the trace holds a real worker
await of the failed step), because `resume` checks only that
`failedStep` is non-null; this refutes "resume must not re-run any step"
for such states. -/
theorem c5_counterexample :
    canResume firstStepFailedState.state = false ∧
    RunEffect.runAttempt initializing 1 ∈ (resume envOk firstStepFailedState).2.2 := by
  constructor
  · rfl
  · exact resume_runs_failed_step envOk firstStepFailedState initializing rfl (by simp [firstStepFailedState, makeInitialRecoveryState])

/-- C5 (amended): `canResume` — the hook-level predicate — is false
whenever `completedSteps` is empty; the service's `resume`, however,
guards only on `failedStep`: it returns null without running any step
exactly when `failedStep` is null, and with `failedStep` set it re-runs
from the failed step even when `completedSteps` is empty. -/
theorem c5_resume_guard_and_canResume :
    (∀ st : IndexerRecoveryState, st.completedSteps = [] → canResume st = false) ∧
    (∀ (env : RunEnv) (c : ServiceState), c.state.failedStep = none →
        resume env c = (none, c, [])) ∧
    (∀ (env : RunEnv) (c : ServiceState) (s : IndexingStep),
        c.state.failedStep = some s → s ∉ c.state.completedSteps →
        RunEffect.runAttempt s 1 ∈ (resume env c).2.2) := by
  refine ⟨?_, ?_, ?_⟩
  · intro st h
    simp [canResume, h]
  · intro env c h
    simp [resume, h]
  · intro env c s hf hnm
    exact resume_runs_failed_step env c s hf hnm

/-- Witness for the amended C5 at concrete inputs: the empty-progress
failed state has `canResume` false, a fresh service's `resume` is a
no-op returning null, and `resume` on the failed-first-step state
re-runs the first step. -/
theorem c5_witness :
    canResume firstStepFailedState.state = false ∧
    resume envOk (freshService 0) = (none, freshService 0, []) ∧
    RunEffect.runAttempt initializing 1 ∈ (resume envOk firstStepFailedState).2.2 :=
  ⟨c5_resume_guard_and_canResume.1 firstStepFailedState.state rfl,
   c5_resume_guard_and_canResume.2.1 envOk (freshService 0) rfl,
   c5_resume_guard_and_canResume.2.2 envOk firstStepFailedState initializing rfl
     (by simp [firstStepFailedState, makeInitialRecoveryState])⟩

/-! ## Snapshot aliasing model (`getState()` / `emit()` shallow copies)

`getState` returns `{ ...this.state }` and `emit` hands each listener the
same kind of shallow copy.  To settle what such a snapshot observes
afterwards, the heap of mutable JavaScript objects behind the state is
made explicit: the `stepStates` record and the `completedSteps` array
live at heap addresses, and the top-level state object stores references
to them. -/

/-- The heap: `stepStates` record objects and `completedSteps` array
objects, addressed by allocation ids, with bump allocators. -/
structure JsHeap where
  records : Nat → IndexingStep → StepRecoveryState
  arrays : Nat → List IndexingStep
  nextRecord : Nat
  nextArray : Nat

/-- The top-level `IndexerRecoveryState` object as JavaScript holds it:
plain fields inline, `stepStates` and `completedSteps` as heap
references. -/
structure JsRecoveryObj where
  sessionId : Nat
  stepStatesRef : Nat
  completedStepsRef : Nat
  failedStep : Option IndexingStep
  isPartial : Bool
  totalRetries : Nat
  pendingAction : Option PendingAction
deriving DecidableEq, Repr

/-- `getState()` (and the snapshot `emit()` passes to listeners):
`{ ...this.state }` — a shallow copy duplicating the plain fields and
the two references; the referenced record and array objects stay shared
with the live state. -/
def getState (live : JsRecoveryObj) : JsRecoveryObj :=
  { sessionId := live.sessionId,
    stepStatesRef := live.stepStatesRef,
    completedStepsRef := live.completedStepsRef,
    failedStep := live.failedStep,
    isPartial := live.isPartial,
    totalRetries := live.totalRetries,
    pendingAction := live.pendingAction }

/-- What the holder of a snapshot observes when reading it: the plain
fields plus the dereferenced `stepStates` record and `completedSteps`
array. -/
def readState (h : JsHeap) (snap : JsRecoveryObj) : IndexerRecoveryState :=
  { sessionId := snap.sessionId,
    stepStates := h.records snap.stepStatesRef,
    completedSteps := h.arrays snap.completedStepsRef,
    failedStep := snap.failedStep,
    isPartial := snap.isPartial,
    totalRetries := snap.totalRetries,
    pendingAction := snap.pendingAction }

/-- `patchStep`:
`this.state.stepStates[step] = { ...this.state.stepStates[step], status }`
— a property write on the shared `stepStates` record object: the heap
cell is mutated in place; the live top-level object is untouched. -/
def patchStepH (h : JsHeap) (live : JsRecoveryObj) (s : IndexingStep)
    (v : StepRecoveryStatus) : JsHeap × JsRecoveryObj :=
  ({ h with records := fun i t =>
       if i = live.stepStatesRef ∧ t = s then { h.records i t with status := v }
       else h.records i t },
   live)

/-- `this.state.completedSteps = [...this.state.completedSteps, step]` —
allocates a new array and repoints the live object's field at it; the
previous array object is never mutated. -/
def appendCompletedH (h : JsHeap) (live : JsRecoveryObj) (s : IndexingStep) :
    JsHeap × JsRecoveryObj :=
  ({ h with
      arrays := fun i =>
        if i = h.nextArray then h.arrays live.completedStepsRef ++ [s] else h.arrays i
      nextArray := h.nextArray + 1 },
   { live with completedStepsRef := h.nextArray })

/-- `this.state.failedStep = step;`
`this.state.isPartial = this.state.completedSteps.length > 0` — plain
field writes on the live top-level object. -/
def setFailedH (h : JsHeap) (live : JsRecoveryObj) (s : IndexingStep) :
    JsHeap × JsRecoveryObj :=
  (h, { live with
         failedStep := some s
         isPartial := decide ((h.arrays live.completedStepsRef).length > 0) })

/-- `this.state.totalRetries++` — a plain field write. -/
def incrRetriesH (h : JsHeap) (live : JsRecoveryObj) : JsHeap × JsRecoveryObj :=
  (h, { live with totalRetries := live.totalRetries + 1 })

/-- `reset()`: `this.state = makeInitialRecoveryState(id)` — allocates a
fresh record and a fresh array and rebinds the live state to a brand-new
top-level object; nothing already allocated is written. -/
def resetH (h : JsHeap) (newId : Nat) : JsHeap × JsRecoveryObj :=
  ({ h with
      records := fun i t =>
        if i = h.nextRecord then { step := t, status := .idle } else h.records i t
      arrays := fun i => if i = h.nextArray then [] else h.arrays i
      nextRecord := h.nextRecord + 1
      nextArray := h.nextArray + 1 },
   { sessionId := newId, stepStatesRef := h.nextRecord,
     completedStepsRef := h.nextArray, failedStep := none, isPartial := false,
     totalRetries := 0, pendingAction := none })

/-- The heap and live object of a freshly constructed service. -/
def initialHeap : JsHeap :=
  { records := fun _ t => { step := t, status := .idle },
    arrays := fun _ => [],
    nextRecord := 1,
    nextArray := 1 }

/-- The live top-level object of a freshly constructed service. -/
def initialLive : JsRecoveryObj :=
  { sessionId := 0, stepStatesRef := 0, completedStepsRef := 0,
    failedStep := none, isPartial := false, totalRetries := 0, pendingAction := none }

/-- C6 counterexample: take a snapshot of the fresh service, then let
the controller run `patchStep(initializing, running)`.  The
already-returned snapshot's nested `stepStates` map changes under the
holder's feet — `initializing` reads `idle` before the patch and
`running` after it — because `{ ...this.state }` copies only the
reference to the shared `stepStates` record. -/
theorem c6_counterexample :
    ((readState initialHeap (getState initialLive)).stepStates initializing).status =
      .idle ∧
    ((readState (patchStepH initialHeap initialLive initializing .running).1
        (getState initialLive)).stepStates initializing).status = .running := by
  constructor <;> rfl

/-- C6 (amended): a `getState()`/`emit()` snapshot is only a shallow
copy.  Its plain fields and its `completedSteps` array view are indeed
never changed by any subsequent controller operation — appends allocate
a new array and repoint only the live state, counter/failure updates and
`reset` touch only the live object or fresh allocations — but the
`stepStates` record is shared with the live state, so `patchStep` does
mutate the snapshot's nested `stepStates` map (and nothing else of it):
the snapshot is not a fully immutable copy. -/
theorem c6_snapshot_shallow_copy
    (h : JsHeap) (live : JsRecoveryObj) (s : IndexingStep)
    (v : StepRecoveryStatus) (newId : Nat)
    (hrec : live.stepStatesRef < h.nextRecord)
    (harr : live.completedStepsRef < h.nextArray) :
    readState (appendCompletedH h live s).1 (getState live) =
      readState h (getState live) ∧
    readState (setFailedH h live s).1 (getState live) = readState h (getState live) ∧
    readState (incrRetriesH h live).1 (getState live) = readState h (getState live) ∧
    readState (resetH h newId).1 (getState live) = readState h (getState live) ∧
    ((readState (patchStepH h live s v).1 (getState live)).completedSteps =
       (readState h (getState live)).completedSteps ∧
     (readState (patchStepH h live s v).1 (getState live)).sessionId =
       (readState h (getState live)).sessionId ∧
     (readState (patchStepH h live s v).1 (getState live)).totalRetries =
       (readState h (getState live)).totalRetries ∧
     ((readState (patchStepH h live s v).1 (getState live)).stepStates s).status = v) := by
  have hne : ¬ live.completedStepsRef = h.nextArray := by omega
  have hne2 : ¬ live.stepStatesRef = h.nextRecord := by omega
  refine ⟨?_, rfl, rfl, ?_, ?_, rfl, rfl, ?_⟩
  · simp [appendCompletedH, readState, getState, hne]
  · simp only [readState, getState, resetH]
    congr 1
    · funext t
      simp [hne2]
    · simp [hne]
  · simp [patchStepH, readState, getState]
  · simp [patchStepH, readState, getState]

/-- Witness for the amended C6 at a concrete input: on the fresh
service's heap, appends, counter updates and reset leave a prior
snapshot's view unchanged, while `patchStep` leaves its `completedSteps`
and plain fields alone (mutating only the shared `stepStates` record). -/
theorem c6_witness :
    readState (appendCompletedH initialHeap initialLive initializing).1
        (getState initialLive) = readState initialHeap (getState initialLive) ∧
    readState (resetH initialHeap 9).1 (getState initialLive) =
      readState initialHeap (getState initialLive) ∧
    (readState (patchStepH initialHeap initialLive initializing .running).1
        (getState initialLive)).completedSteps =
      (readState initialHeap (getState initialLive)).completedSteps := by
  have h := c6_snapshot_shallow_copy initialHeap initialLive initializing
    .running 9 (by decide) (by decide)
  exact ⟨h.1, h.2.2.2.1, h.2.2.2.2.1⟩
